import Mathlib

/-!
Formal model of the Joint Bilateral Upsampling (JBU) engine implemented by
`joint_bilateral_upsampling` in `src/app.py`.

Grids are 2D real-valued arrays, modelled as a pair of dimensions together
with a total data function.  The scalar parameters `sigma_spatial` and
`sigma_range` are Python floats; they are modelled as rationals so that
parameter-level facts stay decidable, while pixel data and all kernel
arithmetic live in the exact reals (`np.exp` becomes `Real.exp`).
-/

/-- A 2D grid of real-valued samples with explicit dimensions.  Out-of-range
reads are never used by the model except through explicit clamping. -/
structure Grid where
  h : ℕ
  w : ℕ
  data : ℕ → ℕ → ℝ

/-- A grid whose data function is constant everywhere. -/
def Grid.IsConst (g : Grid) (c : ℝ) : Prop := ∀ i j, g.data i j = c

/-- Concrete constant grid, used for concrete evaluations. -/
def constGrid (h w : ℕ) (c : ℝ) : Grid := ⟨h, w, fun _ _ => c⟩

/-- Clamp an integer index into `[0, n-1]`; this is exactly the behaviour of
edge-replicated (`mode='edge'`) padding in `np.pad`, read back at any index. -/
def clampIdx (n : ℕ) (z : ℤ) : ℕ := (min (max z 0) ((n : ℤ) - 1)).toNat

/-- Python `int()` truncation toward zero on a rational. -/
def pyTrunc (q : ℚ) : ℤ := if 0 ≤ q then ⌊q⌋ else ⌈q⌉

/-- `kernel_size = int(3 * sigma_spatial) | 1` from `src/app.py` line 34:
truncate `3*sigma_spatial` toward zero and set the lowest bit.  The model
takes `Int.toNat` of the truncation; this is exact whenever
`3*sigma_spatial > -1` (in particular for every `sigma_spatial > 0`).  For
`sigma_spatial <= -1/3` the Python expression is a negative odd integer and
`np.zeros` raises immediately, so no theorem below is stated there. -/
def kernelSize (s : ℚ) : ℕ := (pyTrunc (3 * s)).toNat ||| 1

/-- `pad_size = kernel_size // 2` (also used as `center` in the source). -/
def padSize (s : ℚ) : ℕ := kernelSize s / 2

/-- The `1e-10` guard added to the combined-kernel sum before dividing. -/
noncomputable def epsGuard : ℝ := 1 / 10 ^ 10

/-- `np.pad(g, ((p, p), (p, p)), mode='edge')`: a `(h+2p) × (w+2p)` grid whose
entry at `(i, j)` is the source entry at the clamped index `(i-p, j-p)`. -/
def padGrid (g : Grid) (p : ℕ) : Grid :=
  ⟨g.h + 2 * p, g.w + 2 * p, fun i j =>
    g.data (clampIdx g.h ((i : ℤ) - p)) (clampIdx g.w ((j : ℤ) - p))⟩

/-- Bilinear sample of a grid at real (sub-pixel) coordinates `(sy, sx)`,
with source coordinates clamped to the valid index range. -/
noncomputable def bilinearSample (src : Grid) (sy sx : ℚ) : ℝ :=
  let y0 : ℤ := ⌊sy⌋
  let x0 : ℤ := ⌊sx⌋
  let fy : ℚ := sy - y0
  let fx : ℚ := sx - x0
  let v : ℤ → ℤ → ℝ := fun a b => src.data (clampIdx src.h a) (clampIdx src.w b)
  ((1 - fy) * (1 - fx) : ℚ) * v y0 x0 + ((1 - fy) * fx : ℚ) * v y0 (x0 + 1)
    + (fy * (1 - fx) : ℚ) * v (y0 + 1) x0 + (fy * fx : ℚ) * v (y0 + 1) (x0 + 1)

/-- `cv2.resize(src, (W, H), interpolation=cv2.INTER_LINEAR)`: bilinear
resampling with half-pixel-centre coordinate mapping
`src_x = (dst_x + 1/2) * (src_w / dst_w) - 1/2` and clamped source reads.
This models the external library call used for the initial dense estimate. -/
noncomputable def resizeLinear (src : Grid) (W H : ℕ) : Grid :=
  ⟨H, W, fun i j =>
    if i < H ∧ j < W then
      bilinearSample src (((i : ℚ) + 1 / 2) * ((src.h : ℚ) / H) - 1 / 2)
        (((j : ℚ) + 1 / 2) * ((src.w : ℚ) / W) - 1 / 2)
    else 0⟩

/-- The initial dense estimate: the coarse solution resized to the guide's
dimensions (`cv2.resize(low_res_solution, (guide.w, guide.h))`). -/
noncomputable def jbuUpsampled (low guide : Grid) : Grid :=
  resizeLinear low guide.w guide.h

/-- Unnormalized spatial Gaussian weight at kernel position `(i, j)`:
`exp(-((i-center)^2 + (j-center)^2) / (2*sigma_spatial^2))`. -/
noncomputable def spatialUnnorm (s : ℚ) (i j : ℕ) : ℝ :=
  Real.exp (-((((i : ℤ) - padSize s) ^ 2 + ((j : ℤ) - padSize s) ^ 2 : ℤ) : ℝ) /
    (2 * (s : ℝ) ^ 2))

/-- `spatial_kernel.sum()` before normalization. -/
noncomputable def spatialSum (s : ℚ) : ℝ :=
  ∑ i ∈ Finset.range (kernelSize s), ∑ j ∈ Finset.range (kernelSize s),
    spatialUnnorm s i j

/-- The normalized spatial kernel (`spatial_kernel /= spatial_kernel.sum()`). -/
noncomputable def spatialKernel (s : ℚ) (i j : ℕ) : ℝ :=
  spatialUnnorm s i j / spatialSum s

/-- Range kernel entry for output pixel `(i, j)` and window offset `(a, b)`:
`exp(-(guide_window[a,b] - padded_guide[center])^2 / (2*sigma_range^2))`,
where windows are read from the edge-padded guide. -/
noncomputable def rangeKernel (guide : Grid) (ss sr : ℚ) (i j a b : ℕ) : ℝ :=
  Real.exp (-((padGrid guide (padSize ss)).data (i + a) (j + b) -
      (padGrid guide (padSize ss)).data (i + padSize ss) (j + padSize ss)) ^ 2 /
    (2 * (sr : ℝ) ^ 2))

/-- `combined_kernel = spatial_kernel * range_kernel`, entrywise. -/
noncomputable def combinedKernel (guide : Grid) (ss sr : ℚ) (i j a b : ℕ) : ℝ :=
  spatialKernel ss a b * rangeKernel guide ss sr i j a b

/-- `combined_kernel.sum()` over the window of output pixel `(i, j)`. -/
noncomputable def combinedSum (guide : Grid) (ss sr : ℚ) (i j : ℕ) : ℝ :=
  ∑ a ∈ Finset.range (kernelSize ss), ∑ b ∈ Finset.range (kernelSize ss),
    combinedKernel guide ss sr i j a b

/-- `combined_kernel /= combined_kernel.sum() + 1e-10`: the weight actually
used in the final weighted sum. -/
noncomputable def normalizedWeight (guide : Grid) (ss sr : ℚ) (i j a b : ℕ) : ℝ :=
  combinedKernel guide ss sr i j a b / (combinedSum guide ss sr i j + epsGuard)

/-- `result[i, j] = (input_window * combined_kernel).sum()`: the weighted sum
of the edge-padded initial estimate over the window of output pixel `(i, j)`. -/
noncomputable def jbuPixel (low guide : Grid) (ss sr : ℚ) (i j : ℕ) : ℝ :=
  ∑ a ∈ Finset.range (kernelSize ss), ∑ b ∈ Finset.range (kernelSize ss),
    (padGrid (jbuUpsampled low guide) (padSize ss)).data (i + a) (j + b) *
      normalizedWeight guide ss sr i j a b

/-- The whole engine `joint_bilateral_upsampling(low, guide, ss, sr)` from
`src/app.py`: a grid with the guide's dimensions whose every in-range pixel
is the bilateral weighted average `jbuPixel`; it is initialized with
`np.zeros_like` and the double loop fills exactly the in-range pixels. -/
noncomputable def joint_bilateral_upsampling (low guide : Grid) (ss sr : ℚ) : Grid :=
  ⟨guide.h, guide.w, fun i j =>
    if i < guide.h ∧ j < guide.w then jbuPixel low guide ss sr i j else 0⟩

/-! ### Basic facts about the kernel size -/

theorem lor_one_mod_two (n : ℕ) : (n ||| 1) % 2 = 1 := by
  have h : (n ||| 1).testBit 0 = true := by simp [Nat.testBit_lor]
  simpa [Nat.testBit_zero] using h

theorem kernelSize_mod_two (s : ℚ) : kernelSize s % 2 = 1 :=
  lor_one_mod_two _

theorem kernelSize_pos (s : ℚ) : 0 < kernelSize s := by
  have h := kernelSize_mod_two s
  omega

theorem kernelSize_eq_two_mul_padSize_add_one (s : ℚ) :
    kernelSize s = 2 * padSize s + 1 := by
  have h := kernelSize_mod_two s
  unfold padSize
  omega

theorem kernelSize_eq_one (ss : ℚ) (hss : 0 < ss) (h23 : ss < 2 / 3) :
    kernelSize ss = 1 := by
  unfold kernelSize pyTrunc
  have h0 : (0 : ℚ) ≤ 3 * ss := by linarith
  rw [if_pos h0]
  have h2 : ⌊3 * ss⌋ < 2 := Int.floor_lt.mpr (by push_cast; linarith)
  have h3 : 0 ≤ ⌊3 * ss⌋ := Int.floor_nonneg.mpr (by linarith)
  have h4 : (⌊3 * ss⌋).toNat = 0 ∨ (⌊3 * ss⌋).toNat = 1 := by omega
  rcases h4 with h4 | h4 <;> rw [h4] <;> rfl

theorem kernelSize_half : kernelSize (1 / 2) = 1 := by
  have h1 : (0 : ℚ) < 1 / 2 := by norm_num
  have h2 : (1 / 2 : ℚ) < 2 / 3 := by norm_num
  exact kernelSize_eq_one (1 / 2) h1 h2

/-! ### Clamping and padding -/

theorem clampIdx_coe (n i : ℕ) (hi : i < n) : clampIdx n (i : ℤ) = i := by
  unfold clampIdx
  omega

/-- Reading the padded grid at `(i+a, j+b)` is reading the source at the
clamped offset `(i+a-p, j+b-p)`: edge-replicated window extraction. -/
theorem padGrid_data_window (g : Grid) (p i j a b : ℕ) :
    (padGrid g p).data (i + a) (j + b)
      = g.data (clampIdx g.h ((i : ℤ) + a - p)) (clampIdx g.w ((j : ℤ) + b - p)) := by
  have h1 : ((i + a : ℕ) : ℤ) - (p : ℤ) = (i : ℤ) + a - p := by push_cast; ring
  have h2 : ((j + b : ℕ) : ℤ) - (p : ℤ) = (j : ℤ) + b - p := by push_cast; ring
  show g.data (clampIdx g.h (((i + a : ℕ) : ℤ) - p)) (clampIdx g.w (((j + b : ℕ) : ℤ) - p))
      = _
  rw [h1, h2]

/-- The centre of the window of output pixel `(i, j)` reads the original
guide pixel `(i, j)` whenever that pixel is in range. -/
theorem padGrid_data_center (g : Grid) (p i j : ℕ) (hi : i < g.h) (hj : j < g.w) :
    (padGrid g p).data (i + p) (j + p) = g.data i j := by
  have h1 : clampIdx g.h (((i + p : ℕ) : ℤ) - p) = i := by unfold clampIdx; omega
  have h2 : clampIdx g.w (((j + p : ℕ) : ℤ) - p) = j := by unfold clampIdx; omega
  show g.data (clampIdx g.h (((i + p : ℕ) : ℤ) - p)) (clampIdx g.w (((j + p : ℕ) : ℤ) - p))
      = _
  rw [h1, h2]

theorem padGrid_isConst (g : Grid) (c : ℝ) (hg : g.IsConst c) (p : ℕ) :
    (padGrid g p).IsConst c := fun _ _ => hg _ _

/-! ### Spatial kernel facts -/

theorem spatialUnnorm_pos (s : ℚ) (i j : ℕ) : 0 < spatialUnnorm s i j :=
  Real.exp_pos _

theorem spatialSum_pos (s : ℚ) : 0 < spatialSum s := by
  unfold spatialSum
  have hne : (Finset.range (kernelSize s)).Nonempty :=
    Finset.nonempty_range_iff.mpr (kernelSize_pos s).ne'
  refine Finset.sum_pos (fun i _ => Finset.sum_pos (fun j _ => spatialUnnorm_pos s i j) hne) hne

theorem spatialKernel_pos (s : ℚ) (i j : ℕ) : 0 < spatialKernel s i j :=
  div_pos (spatialUnnorm_pos s i j) (spatialSum_pos s)

theorem sum_spatialKernel (s : ℚ) :
    (∑ i ∈ Finset.range (kernelSize s), ∑ j ∈ Finset.range (kernelSize s),
      spatialKernel s i j) = 1 := by
  unfold spatialKernel
  simp only [← Finset.sum_div]
  have h : (∑ i ∈ Finset.range (kernelSize s), ∑ j ∈ Finset.range (kernelSize s),
      spatialUnnorm s i j) = spatialSum s := rfl
  rw [h, div_self (spatialSum_pos s).ne']

/-! ### Combined kernel facts -/

theorem epsGuard_pos : 0 < epsGuard := by norm_num [epsGuard]

theorem rangeKernel_pos (guide : Grid) (ss sr : ℚ) (i j a b : ℕ) :
    0 < rangeKernel guide ss sr i j a b :=
  Real.exp_pos _

theorem combinedKernel_pos (guide : Grid) (ss sr : ℚ) (i j a b : ℕ) :
    0 < combinedKernel guide ss sr i j a b :=
  mul_pos (spatialKernel_pos ss a b) (rangeKernel_pos guide ss sr i j a b)

theorem combinedSum_pos (guide : Grid) (ss sr : ℚ) (i j : ℕ) :
    0 < combinedSum guide ss sr i j := by
  unfold combinedSum
  have hne : (Finset.range (kernelSize ss)).Nonempty :=
    Finset.nonempty_range_iff.mpr (kernelSize_pos ss).ne'
  refine Finset.sum_pos
    (fun a _ => Finset.sum_pos (fun b _ => combinedKernel_pos guide ss sr i j a b) hne) hne

theorem sum_normalizedWeight (guide : Grid) (ss sr : ℚ) (i j : ℕ) :
    (∑ a ∈ Finset.range (kernelSize ss), ∑ b ∈ Finset.range (kernelSize ss),
        normalizedWeight guide ss sr i j a b)
      = combinedSum guide ss sr i j / (combinedSum guide ss sr i j + epsGuard) := by
  unfold normalizedWeight
  simp only [← Finset.sum_div]
  rfl

/-! ### Constant guides make the range kernel uniform -/

theorem rangeKernel_of_const (guide : Grid) (c : ℝ) (hg : guide.IsConst c)
    (ss sr : ℚ) (i j a b : ℕ) : rangeKernel guide ss sr i j a b = 1 := by
  unfold rangeKernel
  rw [padGrid_isConst guide c hg (padSize ss) (i + a) (j + b),
    padGrid_isConst guide c hg (padSize ss) (i + padSize ss) (j + padSize ss)]
  simp

/-! ### Evaluation when the kernel degenerates to a single cell -/

theorem padSize_of_ks_one (ss : ℚ) (hk : kernelSize ss = 1) : padSize ss = 0 := by
  unfold padSize
  rw [hk]

theorem spatialKernel_of_ks_one (ss : ℚ) (hk : kernelSize ss = 1) :
    spatialKernel ss 0 0 = 1 := by
  unfold spatialKernel spatialSum
  rw [hk]
  simp only [Finset.sum_range_one]
  exact div_self (spatialUnnorm_pos ss 0 0).ne'

theorem rangeKernel_diag_one (guide : Grid) (ss sr : ℚ) (i j : ℕ)
    (hk : kernelSize ss = 1) : rangeKernel guide ss sr i j 0 0 = 1 := by
  unfold rangeKernel
  rw [padSize_of_ks_one ss hk]
  simp

theorem combinedSum_of_ks_one (guide : Grid) (ss sr : ℚ) (i j : ℕ)
    (hk : kernelSize ss = 1) : combinedSum guide ss sr i j = 1 := by
  unfold combinedSum
  rw [hk]
  simp only [Finset.sum_range_one]
  unfold combinedKernel
  rw [spatialKernel_of_ks_one ss hk, rangeKernel_diag_one guide ss sr i j hk]
  norm_num

/-- With a single-cell kernel the whole bilateral average collapses to the
centre value of the padded initial estimate divided by `1 + 1e-10`. -/
theorem jbuPixel_of_ks_one (low guide : Grid) (ss sr : ℚ) (i j : ℕ)
    (hk : kernelSize ss = 1) (hi : i < guide.h) (hj : j < guide.w) :
    jbuPixel low guide ss sr i j
      = (jbuUpsampled low guide).data i j / (1 + epsGuard) := by
  unfold jbuPixel
  rw [hk]
  simp only [Finset.sum_range_one]
  unfold normalizedWeight combinedKernel
  rw [spatialKernel_of_ks_one ss hk, rangeKernel_diag_one guide ss sr i j hk,
    combinedSum_of_ks_one guide ss sr i j hk, padSize_of_ks_one ss hk]
  have hcent : (padGrid (jbuUpsampled low guide) 0).data (i + 0) (j + 0)
      = (jbuUpsampled low guide).data i j := by
    have hh : i < (jbuUpsampled low guide).h := hi
    have hw : j < (jbuUpsampled low guide).w := hj
    exact padGrid_data_center (jbuUpsampled low guide) 0 i j hh hw
  rw [hcent]
  rw [one_mul, mul_one_div]

/-! ### Resizing a constant grid gives back the constant -/

theorem resizeLinear_const (h w : ℕ) (c : ℝ) (W H i j : ℕ)
    (hi : i < H) (hj : j < W) :
    (resizeLinear (constGrid h w c) W H).data i j = c := by
  show (if i < H ∧ j < W then _ else (0 : ℝ)) = c
  rw [if_pos ⟨hi, hj⟩]
  unfold bilinearSample constGrid
  push_cast
  ring

theorem jbuUpsampled_const_one (x c : ℝ) :
    (jbuUpsampled (constGrid 1 1 x) (constGrid 1 1 c)).data 0 0 = x := by
  unfold jbuUpsampled
  exact resizeLinear_const 1 1 x 1 1 0 0 Nat.one_pos Nat.one_pos

/-!
### The specification's per-pixel formula

The following definitions transcribe the specification's Bilateral
Compositor algorithm (spec section 4.3, steps 1-6) word by word: windows
centred at `(i, j)` with the spatial kernel's radius `r`, extracted with
edge-replicated padding (index clamping), a range kernel against the guide
value at `(i, j)` itself, and weights renormalized with the `1e-10`
epsilon.  They are compared with the source-derived definitions above in
the refinement theorem for claim C3.
-/

/-- Spec step 1/2: window entry of a grid at offset `(a, b)` from the
window whose centre is `(i, j)` and whose radius is `r`, with
edge-replicated padding at the borders. -/
noncomputable def specWindowVal (g : Grid) (i j a b r : ℕ) : ℝ :=
  g.data (clampIdx g.h ((i : ℤ) + a - r)) (clampIdx g.w ((j : ℤ) + b - r))

/-- Spec step 3: `exp(-(guide_window[offset] - guide[i,j])^2 / (2*sigma_range^2))`. -/
noncomputable def specRangeKernel (guide : Grid) (sr : ℚ) (i j a b r : ℕ) : ℝ :=
  Real.exp (-(specWindowVal guide i j a b r - guide.data i j) ^ 2 /
    (2 * (sr : ℝ) ^ 2))

/-- Spec step 4: combined weight = spatial kernel entry times range kernel entry. -/
noncomputable def specCombined (guide : Grid) (ss sr : ℚ) (i j a b : ℕ) : ℝ :=
  spatialKernel ss a b * specRangeKernel guide sr i j a b (padSize ss)

/-- Spec steps 5-6: renormalize the combined weights with the epsilon guard
and take the weighted sum of the initial-estimate window. -/
noncomputable def specPixel (initial guide : Grid) (ss sr : ℚ) (i j : ℕ) : ℝ :=
  ∑ a ∈ Finset.range (kernelSize ss), ∑ b ∈ Finset.range (kernelSize ss),
    specWindowVal initial i j a b (padSize ss) *
      (specCombined guide ss sr i j a b /
        ((∑ x ∈ Finset.range (kernelSize ss), ∑ y ∈ Finset.range (kernelSize ss),
          specCombined guide ss sr i j x y) + epsGuard))

/-- Modelled from the spec: "a plain spatially-weighted blur of the initial
upsample" (spec section 8, uniform-guide invariance) - the weighted sum of
the edge-replicated window of the initial estimate under the normalized
spatial kernel alone. -/
noncomputable def spatialBlur (initial : Grid) (ss : ℚ) (i j : ℕ) : ℝ :=
  ∑ a ∈ Finset.range (kernelSize ss), ∑ b ∈ Finset.range (kernelSize ss),
    spatialKernel ss a b * specWindowVal initial i j a b (padSize ss)

/-!
### State-passing model of the compositor loop

The source's double loop writes pixel after pixel into the freshly created
`result` array while reading the inputs.  The loop is modelled as explicit
state passing: the state carries the two input grids and the result grid,
and each step overwrites exactly one result cell.
-/

/-- The mutable state of the compositor loop: both input grids and the
output grid created by `np.zeros_like`. -/
structure JbuState where
  low : Grid
  guide : Grid
  result : Grid

/-- One iteration of the inner loop body: `result[i, j] = ...`; only the
`result` field changes. -/
noncomputable def writePixel (ss sr : ℚ) (st : JbuState) (ij : ℕ × ℕ) : JbuState :=
  { st with result := ⟨st.result.h, st.result.w, fun a b =>
      if a = ij.1 ∧ b = ij.2 then jbuPixel st.low st.guide ss sr ij.1 ij.2
      else st.result.data a b⟩ }

/-- Row-major traversal order of the double loop over all output pixels. -/
def pixelIndices (h w : ℕ) : List (ℕ × ℕ) :=
  (List.range h).flatMap fun i => (List.range w).map fun j => (i, j)

/-- The compositor loop: execute `writePixel` for each index in order. -/
noncomputable def compositeLoop (ss sr : ℚ) : JbuState → List (ℕ × ℕ) → JbuState
  | st, [] => st
  | st, ij :: rest => compositeLoop ss sr (writePixel ss sr st ij) rest

/-- The whole filter call as a stateful computation: start from the two
input grids plus a zero-initialized result of the guide's shape, then run
the full double loop. -/
noncomputable def runFilter (low guide : Grid) (ss sr : ℚ) : JbuState :=
  compositeLoop ss sr ⟨low, guide, ⟨guide.h, guide.w, fun _ _ => 0⟩⟩
    (pixelIndices guide.h guide.w)

theorem compositeLoop_preserves (ss sr : ℚ) (l : List (ℕ × ℕ)) (st : JbuState) :
    (compositeLoop ss sr st l).low = st.low ∧
    (compositeLoop ss sr st l).guide = st.guide ∧
    (compositeLoop ss sr st l).result.h = st.result.h ∧
    (compositeLoop ss sr st l).result.w = st.result.w := by
  induction l generalizing st with
  | nil => exact ⟨rfl, rfl, rfl, rfl⟩
  | cons ij rest ih => exact ih (writePixel ss sr st ij)

/-! ### Bridging the padded-array code with the spec's clamped-window formula -/

theorem rangeKernel_eq_spec (guide : Grid) (ss sr : ℚ) (i j a b : ℕ)
    (hi : i < guide.h) (hj : j < guide.w) :
    rangeKernel guide ss sr i j a b
      = specRangeKernel guide sr i j a b (padSize ss) := by
  unfold rangeKernel specRangeKernel specWindowVal
  rw [padGrid_data_window, padGrid_data_center guide (padSize ss) i j hi hj]

theorem combinedKernel_eq_spec (guide : Grid) (ss sr : ℚ) (i j a b : ℕ)
    (hi : i < guide.h) (hj : j < guide.w) :
    combinedKernel guide ss sr i j a b = specCombined guide ss sr i j a b := by
  unfold combinedKernel specCombined
  rw [rangeKernel_eq_spec guide ss sr i j a b hi hj]

theorem combinedSum_eq_spec (guide : Grid) (ss sr : ℚ) (i j : ℕ)
    (hi : i < guide.h) (hj : j < guide.w) :
    combinedSum guide ss sr i j
      = ∑ x ∈ Finset.range (kernelSize ss), ∑ y ∈ Finset.range (kernelSize ss),
          specCombined guide ss sr i j x y := by
  unfold combinedSum
  refine Finset.sum_congr rfl fun x _ => Finset.sum_congr rfl fun y _ => ?_
  exact combinedKernel_eq_spec guide ss sr i j x y hi hj

theorem jbuPixel_eq_specPixel (low guide : Grid) (ss sr : ℚ) (i j : ℕ)
    (hi : i < guide.h) (hj : j < guide.w) :
    jbuPixel low guide ss sr i j
      = specPixel (jbuUpsampled low guide) guide ss sr i j := by
  unfold jbuPixel specPixel normalizedWeight
  refine Finset.sum_congr rfl fun a _ => Finset.sum_congr rfl fun b _ => ?_
  rw [padGrid_data_window (jbuUpsampled low guide) (padSize ss) i j a b,
    combinedKernel_eq_spec guide ss sr i j a b hi hj,
    combinedSum_eq_spec guide ss sr i j hi hj]
  rfl

theorem specWindowVal_zero (g : Grid) (i j : ℕ) (hi : i < g.h) (hj : j < g.w) :
    specWindowVal g i j 0 0 0 = g.data i j := by
  unfold specWindowVal
  have h1 : ((i : ℤ) + (0 : ℕ) - (0 : ℕ)) = ((i : ℕ) : ℤ) := by push_cast; ring
  have h2 : ((j : ℤ) + (0 : ℕ) - (0 : ℕ)) = ((j : ℕ) : ℤ) := by push_cast; ring
  rw [h1, h2, clampIdx_coe g.h i hi, clampIdx_coe g.w j hj]

/-- Reading an in-range pixel of the output grid gives the bilateral
weighted average computed by the double loop. -/
theorem jbu_data_eq (low guide : Grid) (ss sr : ℚ) (i j : ℕ)
    (hi : i < guide.h) (hj : j < guide.w) :
    (joint_bilateral_upsampling low guide ss sr).data i j
      = jbuPixel low guide ss sr i j := by
  show (if i < guide.h ∧ j < guide.w then jbuPixel low guide ss sr i j else 0)
      = jbuPixel low guide ss sr i j
  exact if_pos ⟨hi, hj⟩

/-! ## Claims -/

/-- Claim C1, counterexample.  At `sigma_spatial = 1` the engine's kernel
side is `int(3*1) | 1 = 3`, while the claimed formula `2*ceil(3*1)+1`
gives `7`: the claimed side length is wrong. -/
theorem C1_counterexample :
    kernelSize 1 = 3 ∧ 2 * (⌈3 * (1 : ℚ)⌉).toNat + 1 = 7 ∧
      kernelSize 1 ≠ 2 * (⌈3 * (1 : ℚ)⌉).toNat + 1 := by
  have h3 : kernelSize 1 = 3 := by
    unfold kernelSize pyTrunc
    norm_num
    decide
  have h7 : 2 * (⌈3 * (1 : ℚ)⌉).toNat + 1 = 7 := by
    norm_num
    decide
  exact ⟨h3, h7, by rw [h3, h7]; omega⟩

/-- Claim C1, amended.  For every `sigma_spatial > 0` the spatial kernel
side is `int(3*sigma_spatial) | 1` - the truncation of `3*sigma_spatial`
with its lowest bit set, not `2*ceil(3*sigma_spatial)+1`.  That side is
always odd, hence equal to `2*radius+1` for the radius `kernel_size // 2`
actually used for padding and centring. -/
theorem C1_kernel_size_amended (s : ℚ) (hs : 0 < s) :
    kernelSize s = 2 * padSize s + 1 ∧ Odd (kernelSize s) :=
  ⟨kernelSize_eq_two_mul_padSize_add_one s, Nat.odd_iff.mpr (kernelSize_mod_two s)⟩

/-- Claim C1, witness for the amended theorem at `sigma_spatial = 1`. -/
theorem C1_witness :
    (0 : ℚ) < 1 ∧ (kernelSize 1 = 2 * padSize 1 + 1 ∧ Odd (kernelSize 1)) :=
  ⟨by norm_num, C1_kernel_size_amended 1 (by norm_num)⟩

/-- Claim C2, counterexample.  With `sigma_range = -1 <= 0` (and
`sigma_spatial = 1/2 > 0`) the source performs no validation at all: the
call runs to completion and returns a full output grid of the guide's
dimensions, with the concrete pixel value `2 / (1 + 1e-10)` - no
`InvalidParameter` failure occurs and a complete output is returned. -/
theorem C2_counterexample :
    (joint_bilateral_upsampling (constGrid 1 1 2) (constGrid 1 1 5) (1 / 2) (-1)).h = 1 ∧
    (joint_bilateral_upsampling (constGrid 1 1 2) (constGrid 1 1 5) (1 / 2) (-1)).w = 1 ∧
    (joint_bilateral_upsampling (constGrid 1 1 2) (constGrid 1 1 5) (1 / 2) (-1)).data 0 0
      = 2 / (1 + epsGuard) := by
  refine ⟨rfl, rfl, ?_⟩
  rw [jbu_data_eq (constGrid 1 1 2) (constGrid 1 1 5) (1 / 2) (-1) 0 0
      Nat.one_pos Nat.one_pos,
    jbuPixel_of_ks_one (constGrid 1 1 2) (constGrid 1 1 5) (1 / 2) (-1) 0 0
      kernelSize_half Nat.one_pos Nat.one_pos, jbuUpsampled_const_one]

/-- Claim C2, amended.  The source contains no parameter validation: for
any `sigma_range <= 0` (with `sigma_spatial > 0`, so that the kernel is
constructible) the filter does not fail; it returns a complete output grid
with exactly the guide's dimensions. -/
theorem C2_no_validation (low guide : Grid) (ss sr : ℚ)
    (hss : 0 < ss) (hsr : sr ≤ 0) :
    (joint_bilateral_upsampling low guide ss sr).h = guide.h ∧
    (joint_bilateral_upsampling low guide ss sr).w = guide.w :=
  ⟨rfl, rfl⟩

/-- Claim C2, witness for the amended theorem. -/
theorem C2_witness :
    (0 : ℚ) < 1 / 2 ∧ (-1 : ℚ) ≤ 0 ∧
    ((joint_bilateral_upsampling (constGrid 1 1 2) (constGrid 1 1 5) (1 / 2) (-1)).h
        = (constGrid 1 1 5).h ∧
      (joint_bilateral_upsampling (constGrid 1 1 2) (constGrid 1 1 5) (1 / 2) (-1)).w
        = (constGrid 1 1 5).w) :=
  ⟨by norm_num, by norm_num,
    C2_no_validation (constGrid 1 1 2) (constGrid 1 1 5) (1 / 2) (-1)
      (by norm_num) (by norm_num)⟩

/-- Claim C3.  Every in-range output pixel equals the specification's
per-pixel formula: the weighted sum, over the window of the spatial
kernel's radius extracted with edge-replicated padding, of the initial
upsampled estimate, weighted by the spatial kernel entry times the range
kernel entry `exp(-(guide_window[offset] - guide[i,j])^2 / (2*sigma_range^2))`,
renormalized over the window (with the spec's `1e-10` denominator guard). -/
theorem C3_pixel_formula (low guide : Grid) (ss sr : ℚ) (i j : ℕ)
    (hi : i < guide.h) (hj : j < guide.w) :
    (joint_bilateral_upsampling low guide ss sr).data i j
      = specPixel (jbuUpsampled low guide) guide ss sr i j := by
  rw [jbu_data_eq low guide ss sr i j hi hj,
    jbuPixel_eq_specPixel low guide ss sr i j hi hj]

/-- Claim C3, witness at a concrete 1x1 input. -/
theorem C3_witness :
    0 < (constGrid 1 1 5).h ∧ 0 < (constGrid 1 1 5).w ∧
    (joint_bilateral_upsampling (constGrid 1 1 2) (constGrid 1 1 5) 1 1).data 0 0
      = specPixel (jbuUpsampled (constGrid 1 1 2) (constGrid 1 1 5))
          (constGrid 1 1 5) 1 1 0 0 :=
  ⟨Nat.one_pos, Nat.one_pos,
    C3_pixel_formula (constGrid 1 1 2) (constGrid 1 1 5) 1 1 0 0 Nat.one_pos Nat.one_pos⟩

/-- Claim C4.  For positive sigmas the returned grid has exactly the
guide's dimensions. -/
theorem C4_shape_preservation (low guide : Grid) (ss sr : ℚ)
    (hss : 0 < ss) (hsr : 0 < sr) :
    (joint_bilateral_upsampling low guide ss sr).h = guide.h ∧
    (joint_bilateral_upsampling low guide ss sr).w = guide.w :=
  ⟨rfl, rfl⟩

/-- Claim C4, witness at a concrete input. -/
theorem C4_witness :
    (0 : ℚ) < 1 ∧ (0 : ℚ) < 2 ∧
    ((joint_bilateral_upsampling (constGrid 1 1 2) (constGrid 2 3 5) 1 2).h
        = (constGrid 2 3 5).h ∧
      (joint_bilateral_upsampling (constGrid 1 1 2) (constGrid 2 3 5) 1 2).w
        = (constGrid 2 3 5).w) :=
  ⟨by norm_num, by norm_num,
    C4_shape_preservation (constGrid 1 1 2) (constGrid 2 3 5) 1 2 (by norm_num) (by norm_num)⟩

/-- Claim C5.  For every `sigma_spatial > 0` the built spatial kernel has
all entries non-negative and, in exact real arithmetic, its entries sum to
exactly 1 after the normalization step. -/
theorem C5_kernel_normalization (s : ℚ) (hs : 0 < s) (i j : ℕ) :
    0 ≤ spatialKernel s i j ∧
    (∑ a ∈ Finset.range (kernelSize s), ∑ b ∈ Finset.range (kernelSize s),
      spatialKernel s a b) = 1 :=
  ⟨(spatialKernel_pos s i j).le, sum_spatialKernel s⟩

/-- Claim C5, witness at `sigma_spatial = 1`. -/
theorem C5_witness :
    (0 : ℚ) < 1 ∧
    (0 ≤ spatialKernel 1 0 0 ∧
      (∑ a ∈ Finset.range (kernelSize 1), ∑ b ∈ Finset.range (kernelSize 1),
        spatialKernel 1 a b) = 1) :=
  ⟨by norm_num, C5_kernel_normalization 1 (by norm_num) 0 0⟩

/-- Claim C6, counterexample.  At a concrete pixel the renormalized
combined weights do not total 1: with the `1e-10` epsilon in the
denominator they total `S / (S + 1e-10) < 1`.  Here the window sum is
exactly `1 / (1 + 1e-10)`. -/
theorem C6_counterexample :
    (∑ a ∈ Finset.range (kernelSize (1 / 2)), ∑ b ∈ Finset.range (kernelSize (1 / 2)),
      normalizedWeight (constGrid 1 1 5) (1 / 2) 1 0 0 a b) ≠ 1 := by
  rw [sum_normalizedWeight (constGrid 1 1 5) (1 / 2) 1 0 0,
    combinedSum_of_ks_one (constGrid 1 1 5) (1 / 2) 1 0 0 kernelSize_half]
  norm_num [epsGuard]

/-- Claim C6, amended.  After the renormalization step the combined
weights of every output pixel total `S / (S + 1e-10)` where `S` is the
window's combined-weight sum - a value strictly less than 1 (equal to 1
only up to the epsilon), because the epsilon is added to the denominator. -/
theorem C6_weight_sum (guide : Grid) (ss sr : ℚ) (i j : ℕ) :
    (∑ a ∈ Finset.range (kernelSize ss), ∑ b ∈ Finset.range (kernelSize ss),
        normalizedWeight guide ss sr i j a b)
      = combinedSum guide ss sr i j / (combinedSum guide ss sr i j + epsGuard) ∧
    (∑ a ∈ Finset.range (kernelSize ss), ∑ b ∈ Finset.range (kernelSize ss),
        normalizedWeight guide ss sr i j a b) < 1 := by
  refine ⟨sum_normalizedWeight guide ss sr i j, ?_⟩
  rw [sum_normalizedWeight guide ss sr i j]
  have h1 := combinedSum_pos guide ss sr i j
  have h2 := epsGuard_pos
  rw [div_lt_one (by linarith)]
  linarith

/-- Claim C7, counterexample.  With a constant guide the output pixel does
not equal the plain spatially-weighted blur of the initial upsample: the
epsilon guard scales it by `1 / (1 + 1e-10)`.  Concretely the blur is `2`
but the output pixel is `2 / (1 + 1e-10)`. -/
theorem C7_counterexample :
    (joint_bilateral_upsampling (constGrid 1 1 2) (constGrid 1 1 5) (1 / 2) 1).data 0 0
      ≠ spatialBlur (jbuUpsampled (constGrid 1 1 2) (constGrid 1 1 5)) (1 / 2) 0 0 := by
  rw [jbu_data_eq (constGrid 1 1 2) (constGrid 1 1 5) (1 / 2) 1 0 0
      Nat.one_pos Nat.one_pos,
    jbuPixel_of_ks_one (constGrid 1 1 2) (constGrid 1 1 5) (1 / 2) 1 0 0
      kernelSize_half Nat.one_pos Nat.one_pos, jbuUpsampled_const_one]
  unfold spatialBlur
  rw [kernelSize_half]
  simp only [Finset.sum_range_one]
  rw [spatialKernel_of_ks_one (1 / 2) kernelSize_half, padSize_of_ks_one (1 / 2) kernelSize_half,
    specWindowVal_zero (jbuUpsampled (constGrid 1 1 2) (constGrid 1 1 5)) 0 0
      Nat.one_pos Nat.one_pos, jbuUpsampled_const_one]
  norm_num [epsGuard]

/-- Claim C7, amended.  If the guide grid is constant-valued everywhere
the range kernel is uniform (every entry is 1) at every pixel, and the
output pixel equals the plain spatially-weighted blur of the initial
upsample divided by `1 + 1e-10` - that is, the blur scaled by the epsilon
guard, not the blur itself. -/
theorem C7_uniform_guide (low guide : Grid) (c : ℝ) (ss sr : ℚ) (i j a b : ℕ)
    (hg : guide.IsConst c) (hss : 0 < ss) (hsr : 0 < sr)
    (hi : i < guide.h) (hj : j < guide.w) :
    rangeKernel guide ss sr i j a b = 1 ∧
    (joint_bilateral_upsampling low guide ss sr).data i j
      = spatialBlur (jbuUpsampled low guide) ss i j / (1 + epsGuard) := by
  refine ⟨rangeKernel_of_const guide c hg ss sr i j a b, ?_⟩
  have hck : ∀ x y : ℕ, combinedKernel guide ss sr i j x y = spatialKernel ss x y := by
    intro x y
    unfold combinedKernel
    rw [rangeKernel_of_const guide c hg ss sr i j x y, mul_one]
  have hcs : combinedSum guide ss sr i j = 1 := by
    unfold combinedSum
    simp only [hck]
    exact sum_spatialKernel ss
  have hnw : ∀ x y : ℕ, normalizedWeight guide ss sr i j x y
      = spatialKernel ss x y / (1 + epsGuard) := by
    intro x y
    unfold normalizedWeight
    rw [hck, hcs]
  rw [jbu_data_eq low guide ss sr i j hi hj]
  unfold jbuPixel
  simp only [hnw]
  have halg : ∀ x k : ℝ, x * (k / (1 + epsGuard)) = k * x / (1 + epsGuard) := by
    intro x k
    ring
  simp only [halg]
  simp only [← Finset.sum_div]
  unfold spatialBlur specWindowVal
  simp only [padGrid_data_window (jbuUpsampled low guide) (padSize ss) i j]

/-- Claim C7, witness for the amended theorem at a concrete constant
guide. -/
theorem C7_witness :
    (constGrid 1 1 5).IsConst 5 ∧ (0 : ℚ) < 1 ∧ (0 : ℚ) < 2 ∧
    0 < (constGrid 1 1 5).h ∧ 0 < (constGrid 1 1 5).w ∧
    (rangeKernel (constGrid 1 1 5) 1 2 0 0 0 0 = 1 ∧
      (joint_bilateral_upsampling (constGrid 1 1 2) (constGrid 1 1 5) 1 2).data 0 0
        = spatialBlur (jbuUpsampled (constGrid 1 1 2) (constGrid 1 1 5)) 1 0 0
            / (1 + epsGuard)) :=
  ⟨fun _ _ => rfl, by norm_num, by norm_num, Nat.one_pos, Nat.one_pos,
    C7_uniform_guide (constGrid 1 1 2) (constGrid 1 1 5) 5 1 2 0 0 0 0
      (fun _ _ => rfl) (by norm_num) (by norm_num) Nat.one_pos Nat.one_pos⟩

/-- Claim C8.  The filter, run as the stateful double loop of the source,
leaves both input grids exactly as they were: every loop iteration writes
only the `result` grid created by the engine, so after the full loop the
coarse solution and the guide equal their pre-call values and the result
grid has the guide's shape. -/
theorem C8_inputs_immutable (low guide : Grid) (ss sr : ℚ) :
    (runFilter low guide ss sr).low = low ∧
    (runFilter low guide ss sr).guide = guide ∧
    (runFilter low guide ss sr).result.h = guide.h ∧
    (runFilter low guide ss sr).result.w = guide.w :=
  compositeLoop_preserves ss sr (pixelIndices guide.h guide.w)
    ⟨low, guide, ⟨guide.h, guide.w, fun _ _ => 0⟩⟩

/-- Claim C9.  For positive sigmas every combined-kernel entry is strictly
positive (a product of a strictly positive normalized Gaussian weight and
a strictly positive exponential), hence the per-pixel combined-weight sum
is strictly positive and the epsilon-guarded denominator is never zero. -/
theorem C9_weights_strictly_positive (guide : Grid) (ss sr : ℚ) (i j a b : ℕ)
    (hss : 0 < ss) (hsr : 0 < sr) :
    0 < combinedKernel guide ss sr i j a b ∧
    0 < combinedSum guide ss sr i j ∧
    combinedSum guide ss sr i j + epsGuard ≠ 0 :=
  ⟨combinedKernel_pos guide ss sr i j a b, combinedSum_pos guide ss sr i j,
    (add_pos (combinedSum_pos guide ss sr i j) epsGuard_pos).ne'⟩

/-- Claim C9, witness at a concrete input. -/
theorem C9_witness :
    (0 : ℚ) < 1 ∧ (0 : ℚ) < 2 ∧
    (0 < combinedKernel (constGrid 1 1 5) 1 2 0 0 0 0 ∧
      0 < combinedSum (constGrid 1 1 5) 1 2 0 0 ∧
      combinedSum (constGrid 1 1 5) 1 2 0 0 + epsGuard ≠ 0) :=
  ⟨by norm_num, by norm_num,
    C9_weights_strictly_positive (constGrid 1 1 5) 1 2 0 0 0 0 (by norm_num) (by norm_num)⟩

/-- Claim C10.  For `0 < sigma_spatial < 2/3` the computed kernel size
`int(3*sigma_spatial) | 1` equals 1, the per-pixel window is the single
centre pixel, and every in-range output pixel equals the corresponding
initial-upsample value divided by `1 + 1e-10`: the filter performs no
smoothing at all in this parameter range. -/
theorem C10_tiny_sigma_no_smoothing (low guide : Grid) (ss sr : ℚ) (i j : ℕ)
    (h1 : 0 < ss) (h2 : ss < 2 / 3) (h3 : 0 < sr)
    (hi : i < guide.h) (hj : j < guide.w) :
    kernelSize ss = 1 ∧
    (joint_bilateral_upsampling low guide ss sr).data i j
      = (jbuUpsampled low guide).data i j / (1 + epsGuard) := by
  have hk := kernelSize_eq_one ss h1 h2
  refine ⟨hk, ?_⟩
  rw [jbu_data_eq low guide ss sr i j hi hj,
    jbuPixel_of_ks_one low guide ss sr i j hk hi hj]

/-- Claim C10, witness at `sigma_spatial = 1/2` on a concrete input. -/
theorem C10_witness :
    (0 : ℚ) < 1 / 2 ∧ (1 / 2 : ℚ) < 2 / 3 ∧ (0 : ℚ) < 3 ∧
    0 < (constGrid 1 1 5).h ∧ 0 < (constGrid 1 1 5).w ∧
    (kernelSize (1 / 2) = 1 ∧
      (joint_bilateral_upsampling (constGrid 1 1 2) (constGrid 1 1 5) (1 / 2) 3).data 0 0
        = (jbuUpsampled (constGrid 1 1 2) (constGrid 1 1 5)).data 0 0 / (1 + epsGuard)) :=
  ⟨by norm_num, by norm_num, by norm_num, Nat.one_pos, Nat.one_pos,
    C10_tiny_sigma_no_smoothing (constGrid 1 1 2) (constGrid 1 1 5) (1 / 2) 3 0 0
      (by norm_num) (by norm_num) (by norm_num) Nat.one_pos Nat.one_pos⟩
